import Mathlib

/-!
Verification of the dataset datapoint module
(`app-server/src/datasets/datapoints.rs`): normalization of raw JSON
records into canonical datapoints, file-format decoders, decoder
selection by file extension, and projection into the vector-DB
indexing record.

JSON values (`serde_json::Value`) are embedded as an inductive type
whose objects are association lists of string keys; lookup returns the
first matching entry, matching the unique-key maps produced by the
JSON parser. Randomness (`Uuid::new_v4`) is embedded by passing the
freshly generated identifier as an explicit `fresh` argument.
-/

set_option autoImplicit false

/-- Embedding of `serde_json::Value`: null, booleans, numbers, strings,
arrays and string-keyed objects. Numbers carry an integer payload; no
claim inspects numeric values beyond identity. -/
inductive Value where
  | null : Value
  | bool (b : Bool) : Value
  | num (n : Int) : Value
  | str (s : String) : Value
  | arr (vs : List Value) : Value
  | obj (kvs : List (String × Value)) : Value
deriving Repr

/-- Map lookup on a JSON object (`serde_json::Map::get`): the first
entry with the given key. Parsed JSON objects have unique keys, so
"first" is the only entry. -/
def objGet (kvs : List (String × Value)) (k : String) : Option Value :=
  match kvs with
  | [] => none
  | (k', v) :: rest => if k' = k then some v else objGet rest k

/-- Embedding of `Value::as_str`: the string payload of a JSON string, else `None`. -/
def Value.as_str : Value → Option String
  | .str s => some s
  | _ => none

/-- Value of a hexadecimal digit character, `None` for non-hex. -/
def hex_digit_val (c : Char) : Option Nat :=
  if '0' ≤ c ∧ c ≤ '9' then some (c.toNat - 48)
  else if 'a' ≤ c ∧ c ≤ 'f' then some (c.toNat - 87)
  else if 'A' ≤ c ∧ c ≤ 'F' then some (c.toNat - 55)
  else none

/-- Big-endian hexadecimal digit accumulation; `None` when any
character is not a hex digit. -/
def parse_hex_digits (acc : Nat) : List Char → Option Nat
  | [] => some acc
  | c :: cs =>
    match hex_digit_val c with
    | some d => parse_hex_digits (acc * 16 + d) cs
    | none => none

/-- Embedding of `uuid::Uuid`: a 128-bit identifier, carried as a
natural number. -/
structure Uuid where
  val : Nat
deriving DecidableEq, Repr

/-- Embedding of `str::split` on a single-character pattern: the (always nonempty)
list of maximal runs between occurrences of the separator. -/
def split_on_char (sep : Char) : List Char → List (List Char)
  | [] => [[]]
  | c :: cs =>
    let r := split_on_char sep cs
    if c = sep then [] :: r
    else
      match r with
      | [] => [[c]]
      | p :: ps => (c :: p) :: ps

/-- Embedding of `Uuid::parse_str` (external `uuid` collaborator): the
standard hyphenated `8-4-4-4-12` form and the simple 32-hex-digit form
parse to the 128-bit value; anything else is rejected. -/
def Uuid.parse_str (s : String) : Option Uuid :=
  let parts := split_on_char '-' s.data
  if parts.map List.length = [8, 4, 4, 4, 12] ∨ parts.map List.length = [32] then
    (parse_hex_digits 0 parts.flatten).map Uuid.mk
  else none

/-- Lowercase hexadecimal digit character for a value below 16. -/
def hex_char (n : Nat) : Char :=
  if n < 10 then Char.ofNat (48 + n) else Char.ofNat (87 + n)

/-- Big-endian fixed-width hexadecimal rendering of a natural number. -/
def to_hex (n : Nat) : Nat → List Char
  | 0 => []
  | d + 1 => to_hex (n / 16) d ++ [hex_char (n % 16)]

/-- Embedding of `Uuid::to_string` (external `uuid` collaborator): the
hyphenated lowercase `8-4-4-4-12` hexadecimal form. -/
def Uuid.render (u : Uuid) : String :=
  let h := to_hex (u.val % 2 ^ 128) 32
  String.mk (h.take 8 ++ '-' :: (h.drop 8).take 4 ++ '-' :: (h.drop 12).take 4
    ++ '-' :: (h.drop 16).take 4 ++ '-' :: h.drop 20)

/-- The canonical `Datapoint` entity (struct `Datapoint`). `metadata`
(`HashMap<String, Value>`) is carried as an association list. -/
structure Datapoint where
  id : Uuid
  dataset_id : Uuid
  data : Value
  target : Option Value
  metadata : List (String × Value)
deriving Repr

/-- The recognized-key allow-list of the normalization heuristic:
`matches!(k, "data" | "target" | "metadata" | "id")`. -/
def allowed_key (k : String) : Bool :=
  k == "data" || k == "target" || k == "metadata" || k == "id"

/-- Embedding of `serde_json::from_value::<HashMap<String, Value>>` followed by
`unwrap_or_default`: a JSON object deserializes to its entry map, any
other value (including null) fails and degrades to the empty map. -/
def parse_metadata (v : Value) : List (String × Value) :=
  match v with
  | .obj kvs => kvs
  | _ => []

/-- The candidate-id computation of `try_from_raw_value` (its local
`id` binding): the object's `id` member, as a string, parsed as a
UUID, defaulting to the freshly generated identifier. -/
def candidate_id (raw_obj : List (String × Value)) (fresh : Uuid) : Uuid :=
  (((objGet raw_obj "id").bind Value.as_str).bind Uuid.parse_str).getD fresh

/-- Embedding of `Datapoint::try_from_raw_value`. `fresh` is the
identifier `Uuid::new_v4()` would generate on this call. -/
def Datapoint.try_from_raw_value (fresh : Uuid) (dataset_id : Uuid) (raw : Value) :
    Option Datapoint :=
  match raw with
  | .obj raw_obj =>
    let id : Uuid := candidate_id raw_obj fresh
    match objGet raw_obj "data", raw_obj.all (fun kv => allowed_key kv.1) with
    | some d, true =>
      some { id := id, dataset_id := dataset_id, data := d,
             target := objGet raw_obj "target",
             metadata := parse_metadata ((objGet raw_obj "metadata").getD .null) }
    | _, _ =>
      some { id := id, dataset_id := dataset_id, data := raw,
             target := none, metadata := [] }
  | .null => none
  | x =>
    some { id := fresh, dataset_id := dataset_id, data := x,
           target := none, metadata := [] }

/-- Overwriting insert on a string association list, embedding
`HashMap::insert` for the CSV row map: an existing entry for the key
is replaced in place, otherwise the entry is appended. -/
def insert_assoc (m : List (String × String)) (k v : String) : List (String × String) :=
  match m with
  | [] => [(k, v)]
  | (k', v') :: rest =>
    if k' = k then (k, v) :: rest else (k', v') :: insert_assoc rest k v

/-- The body of the inner loop of `read_bytes_csv`, iterated over the
remaining loop indices: look up `headers.get(i)` (its failure, a `?`,
would abort the whole call) and `record.get(i).unwrap_or_default()`
(the empty string past the record's end), inserting into the row map. -/
def build_row_go (headers record : List String) (row : List (String × String)) :
    List Nat → Except String (List (String × String))
  | [] => Except.ok row
  | i :: is =>
    match headers.get? i with
    | none => Except.error ("cant read header at position " ++ toString i)
    | some h => build_row_go headers record (insert_assoc row h ((record.get? i).getD "")) is

/-- The inner loop of `read_bytes_csv` building one row object:
`for i in 0..headers.len()` over an initially empty row map. -/
def build_row (headers record : List String) : Except String (List (String × String)) :=
  build_row_go headers record [] (List.range headers.length)

/-- The record loop of `read_bytes_csv`, over the per-record parse
results of the external `csv` reader collaborator: a record parse
error is logged and skipped; each parsed record becomes a JSON object
of string cells, appended to the result vector `acc`. -/
def read_csv_records (hs : List String) (acc : List Value) :
    List (Except String (List String)) → Except String (List Value)
  | [] => Except.ok acc
  | rec :: rest =>
    match rec with
    | .error _ => read_csv_records hs acc rest
    | .ok r =>
      match build_row hs r with
      | .error e => Except.error e
      | .ok row =>
        read_csv_records hs (acc ++ [Value.obj (row.map fun kv => (kv.1, Value.str kv.2))]) rest

/-- Embedding of `read_bytes_csv` proper: fatal on a header error,
then the record loop starting from an empty result vector. -/
def read_bytes_csv (headers : Except String (List String))
    (records : List (Except String (List String))) : Except String (List Value) :=
  match headers with
  | .error e => .error e
  | .ok hs => read_csv_records hs [] records

/-- Embedding of `read_bytes_json`, over the result of the external
`serde_json::from_slice` parse of the whole buffer: a top-level array
yields its elements, any other shape is an error. -/
def read_bytes_json (parsed : Except String Value) : Except String (List Value) :=
  match parsed with
  | .error e => .error e
  | .ok (.arr vs) => .ok vs
  | .ok _ => .error "the file must contain an array of json objects"

/-- Embedding of `filename.split(".").last().unwrap_or_default()`: the last
dot-separated component of the filename (the whole filename when it
contains no dot, since `split` always yields at least one piece). -/
def file_extension (filename : String) : String :=
  String.mk (((split_on_char '.' filename.data).getLastD []))

/-- The three supported decoders of `insert_datapoints_from_file`. -/
inductive DecoderKind where
  | jsonl : DecoderKind
  | json : DecoderKind
  | csv : DecoderKind
deriving DecidableEq, Repr

/-- The decoder-selection chain of `insert_datapoints_from_file`
(lines comparing the extracted extension to "jsonl", "json", "csv"). -/
def select_decoder (filename : String) : Option DecoderKind :=
  let ext := file_extension filename
  if ext = "jsonl" then some .jsonl
  else if ext = "json" then some .json
  else if ext = "csv" then some .csv
  else none

/-- Embedding of `insert_datapoints_from_file`, parameterized by the
selected decoder's result and by the persistence collaborator
(`db::datapoints::insert_raw_data` plus the row conversion): when no
decoder matches, the unsupported-format error is returned and neither
collaborator runs. -/
def insert_datapoints_from_file (decode : DecoderKind → Except String (List Value))
    (store : List Value → Except String (List Datapoint)) (filename : String) :
    Except String (List Datapoint) :=
  match select_decoder filename with
  | some k =>
    match decode k with
    | .error e => .error e
    | .ok data => store data
  | none =>
    .error "Attempting to process file as unstructured even though requested as structured"

/-- Modelled from the spec: a chat message of the `ChatMessage` type
(in `pipeline::nodes`, outside the provided sources) — a role and a
content string. -/
structure ChatMessage where
  role : String
  content : String
deriving Repr

/-- Modelled from the spec: the discriminated `NodeInput` union (in
`pipeline::nodes`, outside the provided sources) — at minimum a plain
JSON value variant and a chat-message-list variant. -/
inductive NodeInput where
  | plain (v : Value) : NodeInput
  | chatMessageList (msgs : List ChatMessage) : NodeInput
deriving Repr

mutual
/-- Serialized text form of a JSON value (external `serde_json`
`to_string` collaborator); string escaping is elided, no claim
depends on it. -/
def render_value : Value → String
  | .null => "null"
  | .bool b => if b then "true" else "false"
  | .num n => toString n
  | .str s => "\"" ++ s ++ "\""
  | .arr vs => "[" ++ String.intercalate "," (render_values vs) ++ "]"
  | .obj kvs => "\x7b" ++ String.intercalate "," (render_members kvs) ++ "\x7d"

/-- Serialized forms of the elements of a JSON array. -/
def render_values : List Value → List String
  | [] => []
  | v :: vs => render_value v :: render_values vs

/-- Serialized forms of the members of a JSON object. -/
def render_members : List (String × Value) → List String
  | [] => []
  | (k, v) :: kvs => ("\"" ++ k ++ "\":" ++ render_value v) :: render_members kvs
end

/-- Modelled from the spec: the display-string collaborator
`json_value_to_string` (in `traces::utils`, outside the provided
sources) — every metadata value becomes a display string regardless of
its structured type; a string renders as its bare content, any other
value as its serialized text form. -/
def json_value_to_string : Value → String
  | .str s => s
  | v => render_value v

/-- Modelled from the spec: the `merge_chat_messages` collaborator (in
`semantic_search::utils`, outside the provided sources) — merges a
chat-message list into one string, role-prefixed and newline-joined. -/
def merge_chat_messages (msgs : List ChatMessage) : String :=
  String.intercalate "\n" (msgs.map fun m => m.role ++ ": " ++ m.content)

/-- Modelled from the spec: deserializing one JSON value as a
`ChatMessage` — an object with string `role` and `content` fields. -/
def parse_chat_message (v : Value) : Option ChatMessage :=
  match v with
  | .obj kvs =>
    match objGet kvs "role", objGet kvs "content" with
    | some (.str r), some (.str c) => some ⟨r, c⟩
    | _, _ => none
  | _ => none

/-- Modelled from the spec: untagged deserialization of one JSON value
as a `NodeInput` — an array whose elements all parse as chat messages
is the chat-message-list variant, anything else the plain variant. -/
def NodeInput.from_value (v : Value) : NodeInput :=
  match v with
  | .arr vs =>
    match vs.mapM parse_chat_message with
    | some msgs => .chatMessageList msgs
    | none => .plain v
  | _ => .plain v

/-- Generic first-match lookup on an association list (`HashMap::get`
for maps deserialized from JSON objects, whose keys are unique). -/
def lookup_assoc {α : Type} (m : List (String × α)) (k : String) : Option α :=
  match m with
  | [] => none
  | (k', v) :: rest => if k' = k then some v else lookup_assoc rest k

/-- Embedding of `serde_json::from_value::<HashMap<String, NodeInput>>(self.data)`:
succeeds exactly on JSON objects, each member value deserialized as a
`NodeInput`. -/
def parse_node_input_map (v : Value) : Option (List (String × NodeInput)) :=
  match v with
  | .obj kvs => some (kvs.map fun kv => (kv.1, NodeInput.from_value kv.2))
  | _ => none

/-- Modelled from the spec: the `String` coercion of a `NodeInput`
("use from already serialized data") — the serialized string form of
the carried value. -/
def NodeInput.render : NodeInput → String
  | .plain v => json_value_to_string v
  | .chatMessageList msgs =>
    render_value (.arr (msgs.map fun m =>
      .obj [("role", .str m.role), ("content", .str m.content)]))

/-- The wire record sent to the indexing service
(`semantic_search_grpc::index_request::Datapoint`). -/
structure VectorDBDatapoint where
  content : String
  datasource_id : String
  data : List (String × String)
  id : String
deriving Repr

/-- Embedding of `Datapoint::into_vector_db_datapoint`; the two
`unwrap()` panics (data not a string-to-NodeInput map, index column
absent) are embedded as `none`. -/
def Datapoint.into_vector_db_datapoint (dp : Datapoint) (index_column : String) :
    Option VectorDBDatapoint :=
  match parse_node_input_map dp.data with
  | none => none
  | some data_map =>
    let metadata_map := dp.metadata.map fun kv => (kv.1, json_value_to_string kv.2)
    match lookup_assoc data_map index_column with
    | none => none
    | some ni =>
      let content : String :=
        match ni with
        | .chatMessageList messages => merge_chat_messages messages
        | _ => ni.render
      some { content := content, datasource_id := dp.dataset_id.render,
             data := metadata_map, id := dp.id.render }

/-- The canonical-shape object rebuilt from a datapoint's own fields:
`data`, `target` (when present), `metadata`, and `id` in string form. -/
def rebuild_canonical (dp : Datapoint) : Value :=
  .obj ([("data", dp.data)] ++
    (match dp.target with | some t => [("target", t)] | none => []) ++
    [("metadata", .obj dp.metadata), ("id", .str dp.id.render)])

/-- On an object with a `data` member whose keys all pass the
allow-list, `try_from_raw_value` takes the canonical branch. -/
theorem try_from_canonical_eq (fresh ds : Uuid) (kvs : List (String × Value)) (d : Value)
    (hdata : objGet kvs "data" = some d)
    (hkeys : kvs.all (fun kv => allowed_key kv.1) = true) :
    Datapoint.try_from_raw_value fresh ds (.obj kvs) =
      some ⟨candidate_id kvs fresh, ds, d, objGet kvs "target",
            parse_metadata ((objGet kvs "metadata").getD .null)⟩ := by
  simp only [Datapoint.try_from_raw_value, hdata, hkeys]

/-- On an object without a `data` member, or with a key outside the
allow-list, `try_from_raw_value` takes the wrap-whole-object branch. -/
theorem try_from_fallback_eq (fresh ds : Uuid) (kvs : List (String × Value))
    (h : objGet kvs "data" = none ∨ kvs.all (fun kv => allowed_key kv.1) = false) :
    Datapoint.try_from_raw_value fresh ds (.obj kvs) =
      some ⟨candidate_id kvs fresh, ds, .obj kvs, none, []⟩ := by
  rcases h with h | h
  · simp only [Datapoint.try_from_raw_value, h]
  · cases hd : objGet kvs "data" <;> simp only [Datapoint.try_from_raw_value, hd, h]

/-- C1: a JSON object with a `data` key whose every key lies in
{data, target, metadata, id} normalizes to a datapoint whose data is
the `data` value verbatim, whose target is the `target` value exactly
when present, whose metadata is the `metadata` value parsed as a
string-keyed map (empty when absent or not an object), and whose id is
the object's `id` string parsed as a UUID when that succeeds and the
freshly generated identifier otherwise. -/
theorem try_from_raw_value_canonical_shape (fresh ds : Uuid)
    (kvs : List (String × Value)) (d : Value)
    (hdata : objGet kvs "data" = some d)
    (hkeys : kvs.all (fun kv => allowed_key kv.1) = true) :
    ∃ dp : Datapoint,
      Datapoint.try_from_raw_value fresh ds (.obj kvs) = some dp ∧
      dp.data = d ∧
      dp.target = objGet kvs "target" ∧
      dp.metadata = (match objGet kvs "metadata" with
        | some (.obj m) => m
        | _ => ([] : List (String × Value))) ∧
      (match objGet kvs "id" with
        | some (.str s) =>
          match Uuid.parse_str s with
          | some u => dp.id = u
          | none => dp.id = fresh
        | some _ => dp.id = fresh
        | none => dp.id = fresh) := by
  refine ⟨_, try_from_canonical_eq fresh ds kvs d hdata hkeys, rfl, rfl, ?_, ?_⟩
  · rcases hm : objGet kvs "metadata" with _ | v
    · rfl
    · cases v <;> simp [parse_metadata]
  · rcases hid : objGet kvs "id" with _ | v
    · simp [candidate_id, hid]
    · cases v <;> simp [candidate_id, hid, Value.as_str]
      rename_i s
      cases hu : Uuid.parse_str s <;> simp [hu]

/-- Witness for C1 at the object with a lone `data` key. -/
theorem try_from_raw_value_canonical_shape_witness : ∃ dp : Datapoint,
    Datapoint.try_from_raw_value ⟨9⟩ ⟨6⟩ (.obj [("data", Value.num 1)]) = some dp ∧
    dp.data = Value.num 1 ∧ dp.target = none ∧ dp.metadata = [] ∧ dp.id = Uuid.mk 9 :=
  try_from_raw_value_canonical_shape ⟨9⟩ ⟨6⟩ [("data", Value.num 1)] (Value.num 1) rfl rfl

/-- C2: a JSON object lacking a `data` key, or containing at least one
key outside {data, target, metadata, id}, normalizes to a datapoint
wrapping the entire input object as its data, with absent target and
empty metadata. -/
theorem try_from_raw_value_wrap_whole (fresh ds : Uuid) (kvs : List (String × Value))
    (h : objGet kvs "data" = none ∨ ∃ kv ∈ kvs, allowed_key kv.1 = false) :
    ∃ dp : Datapoint,
      Datapoint.try_from_raw_value fresh ds (.obj kvs) = some dp ∧
      dp.data = Value.obj kvs ∧ dp.target = none ∧ dp.metadata = [] := by
  refine ⟨_, try_from_fallback_eq fresh ds kvs ?_, rfl, rfl, rfl⟩
  rcases h with h | ⟨kv, hmem, hkv⟩
  · exact Or.inl h
  · cases hall : kvs.all (fun kv => allowed_key kv.1)
    · exact Or.inr rfl
    · exfalso
      rw [List.all_eq_true] at hall
      have := hall kv hmem
      rw [hkv] at this
      exact Bool.false_ne_true this

/-- Witness for C2 at an object carrying an unrecognized `extra` key. -/
theorem try_from_raw_value_wrap_whole_witness : ∃ dp : Datapoint,
    Datapoint.try_from_raw_value ⟨3⟩ ⟨4⟩
        (.obj [("data", Value.num 1), ("extra", Value.num 2)]) = some dp ∧
    dp.data = Value.obj [("data", Value.num 1), ("extra", Value.num 2)] ∧
    dp.target = none ∧ dp.metadata = [] :=
  try_from_raw_value_wrap_whole ⟨3⟩ ⟨4⟩ _
    (Or.inr ⟨("extra", Value.num 2), by simp, rfl⟩)

/-- C3: normalization produces no datapoint exactly when the raw input
is JSON null, and every non-null, non-object input yields a datapoint
with the input as its data verbatim, the freshly generated id, absent
target and empty metadata. -/
theorem try_from_raw_value_none_iff_null (fresh ds : Uuid) (raw : Value) :
    (Datapoint.try_from_raw_value fresh ds raw = none ↔ raw = Value.null) ∧
    (raw ≠ Value.null → (∀ kvs, raw ≠ Value.obj kvs) →
      Datapoint.try_from_raw_value fresh ds raw =
        some ⟨fresh, ds, raw, none, []⟩) := by
  cases raw with
  | null => exact ⟨by simp [Datapoint.try_from_raw_value], fun h _ => absurd rfl h⟩
  | obj kvs =>
    refine ⟨?_, fun _ h => absurd rfl (h kvs)⟩
    constructor
    · intro h
      rcases hd : objGet kvs "data" with _ | d
      · rw [try_from_fallback_eq fresh ds kvs (Or.inl hd)] at h; cases h
      · cases hall : kvs.all (fun kv => allowed_key kv.1)
        · rw [try_from_fallback_eq fresh ds kvs (Or.inr hall)] at h; cases h
        · rw [try_from_canonical_eq fresh ds kvs d hd hall] at h; cases h
    · intro h; cases h
  | bool b => exact ⟨by simp [Datapoint.try_from_raw_value], fun _ _ => rfl⟩
  | num n => exact ⟨by simp [Datapoint.try_from_raw_value], fun _ _ => rfl⟩
  | str s => exact ⟨by simp [Datapoint.try_from_raw_value], fun _ _ => rfl⟩
  | arr vs => exact ⟨by simp [Datapoint.try_from_raw_value], fun _ _ => rfl⟩

/-- Witness for C3 at the string input "x". -/
theorem try_from_raw_value_none_iff_null_witness :
    Datapoint.try_from_raw_value ⟨1⟩ ⟨2⟩ (Value.str "x") =
      some ⟨⟨1⟩, ⟨2⟩, Value.str "x", none, []⟩ :=
  (try_from_raw_value_none_iff_null ⟨1⟩ ⟨2⟩ (Value.str "x")).2
    (fun h => Value.noConfusion h) (fun _ h => Value.noConfusion h)

/-- C9: every datapoint produced by normalization carries the
caller-supplied dataset id, whatever the raw input contains — in
particular a `dataset_id`-shaped member of the input never determines
the result's dataset id. -/
theorem try_from_raw_value_dataset_id_caller (fresh ds : Uuid) (raw : Value) (dp : Datapoint)
    (h : Datapoint.try_from_raw_value fresh ds raw = some dp) :
    dp.dataset_id = ds := by
  cases raw with
  | null => cases h
  | obj kvs =>
    rcases hd : objGet kvs "data" with _ | d
    · rw [try_from_fallback_eq fresh ds kvs (Or.inl hd)] at h
      injection h with h; subst h; rfl
    · cases hall : kvs.all (fun kv => allowed_key kv.1)
      · rw [try_from_fallback_eq fresh ds kvs (Or.inr hall)] at h
        injection h with h; subst h; rfl
      · rw [try_from_canonical_eq fresh ds kvs d hd hall] at h
        injection h with h; subst h; rfl
  | bool b => injection h with h; subst h; rfl
  | num n => injection h with h; subst h; rfl
  | str s => injection h with h; subst h; rfl
  | arr vs => injection h with h; subst h; rfl

/-- Witness for C9 at an input carrying its own `dataset_id` member,
which is ignored in favour of the caller-supplied one. -/
theorem try_from_raw_value_dataset_id_caller_witness :
    (Datapoint.mk ⟨7⟩ ⟨2⟩
      (Value.obj [("dataset_id", Value.str "other"), ("data", Value.num 1)])
      none []).dataset_id = ⟨2⟩ :=
  try_from_raw_value_dataset_id_caller ⟨7⟩ ⟨2⟩
    (Value.obj [("dataset_id", Value.str "other"), ("data", Value.num 1)]) _ rfl

/-- Normalizing the object rebuilt from any datapoint's own fields
reproduces that datapoint's data, target and metadata. -/
theorem rebuild_normalizes (fresh' ds : Uuid) (dp : Datapoint) :
    ∃ dp' : Datapoint,
      Datapoint.try_from_raw_value fresh' ds (rebuild_canonical dp) = some dp' ∧
      dp'.data = dp.data ∧ dp'.target = dp.target ∧ dp'.metadata = dp.metadata := by
  obtain ⟨kvs, hkv, hd, htg, hm, hall⟩ :
      ∃ kvs, rebuild_canonical dp = Value.obj kvs ∧
        objGet kvs "data" = some dp.data ∧ objGet kvs "target" = dp.target ∧
        objGet kvs "metadata" = some (.obj dp.metadata) ∧
        kvs.all (fun kv => allowed_key kv.1) = true := by
    cases ht : dp.target with
    | none =>
      refine ⟨[("data", dp.data), ("metadata", .obj dp.metadata),
        ("id", .str dp.id.render)], ?_, ?_, ?_, ?_, ?_⟩
      · simp [rebuild_canonical, ht]
      · simp [objGet]
      · simp [objGet]
      · simp [objGet]
      · simp [allowed_key]
    | some t =>
      refine ⟨[("data", dp.data), ("target", t), ("metadata", .obj dp.metadata),
        ("id", .str dp.id.render)], ?_, ?_, ?_, ?_, ?_⟩
      · simp [rebuild_canonical, ht]
      · simp [objGet]
      · simp [objGet]
      · simp [objGet]
      · simp [allowed_key]
  rw [hkv]
  exact ⟨_, try_from_canonical_eq fresh' ds kvs dp.data hd hall, rfl, htg, by rw [hm]; rfl⟩

/-- C8: round-trip — when a canonical-shaped object (keys within the
allow-list, `data` present) normalizes to a datapoint, normalizing the
object rebuilt from that datapoint's own fields yields a datapoint
with the same data, target and metadata. -/
theorem try_from_raw_value_round_trip (fresh fresh' ds : Uuid)
    (kvs : List (String × Value)) (d : Value) (dp : Datapoint)
    (_hdata : objGet kvs "data" = some d)
    (_hkeys : kvs.all (fun kv => allowed_key kv.1) = true)
    (_h : Datapoint.try_from_raw_value fresh ds (.obj kvs) = some dp) :
    ∃ dp' : Datapoint,
      Datapoint.try_from_raw_value fresh' ds (rebuild_canonical dp) = some dp' ∧
      dp'.data = dp.data ∧ dp'.target = dp.target ∧ dp'.metadata = dp.metadata :=
  rebuild_normalizes fresh' ds dp

/-- Witness for C8 at a fully populated canonical object. -/
theorem try_from_raw_value_round_trip_witness : ∃ dp' : Datapoint,
    Datapoint.try_from_raw_value ⟨5⟩ ⟨6⟩
      (rebuild_canonical ⟨⟨9⟩, ⟨6⟩, Value.num 1, some (Value.str "t"),
        [("a", Value.num 2)]⟩) = some dp' ∧
    dp'.data = Value.num 1 ∧
    dp'.target = some (Value.str "t") ∧
    dp'.metadata = [("a", Value.num 2)] :=
  try_from_raw_value_round_trip ⟨9⟩ ⟨5⟩ ⟨6⟩
    [("data", Value.num 1), ("target", Value.str "t"),
     ("metadata", Value.obj [("a", Value.num 2)])]
    (Value.num 1) ⟨⟨9⟩, ⟨6⟩, Value.num 1, some (Value.str "t"), [("a", Value.num 2)]⟩
    rfl rfl rfl

/-- Inserting a key not yet present appends the entry. -/
theorem insert_assoc_of_not_mem (row : List (String × String)) (k v : String)
    (h : k ∉ row.map Prod.fst) : insert_assoc row k v = row ++ [(k, v)] := by
  induction row with
  | nil => rfl
  | cons kv rest ih =>
    obtain ⟨k', v'⟩ := kv
    simp only [List.map_cons, List.mem_cons, not_or] at h
    have hne : ¬ k' = k := fun he => h.1 he.symm
    simp only [insert_assoc, if_neg hne, List.cons_append]
    rw [ih h.2]

/-- The keys after an insert are the old keys together with the
inserted key. -/
theorem mem_insert_assoc_keys (row : List (String × String)) (k v h : String) :
    h ∈ (insert_assoc row k v).map Prod.fst ↔ h ∈ row.map Prod.fst ∨ h = k := by
  induction row with
  | nil => simp [insert_assoc]
  | cons kv rest ih =>
    obtain ⟨k', v'⟩ := kv
    simp only [insert_assoc]
    split
    · rename_i hk
      subst hk
      simp only [List.map_cons, List.mem_cons]
      tauto
    · simp only [List.map_cons, List.mem_cons, ih]
      tauto

/-- Inserting preserves distinctness of the keys. -/
theorem insert_assoc_keys_nodup (row : List (String × String)) (k v : String)
    (h : (row.map Prod.fst).Nodup) : ((insert_assoc row k v).map Prod.fst).Nodup := by
  induction row with
  | nil => simp [insert_assoc]
  | cons kv rest ih =>
    obtain ⟨k', v'⟩ := kv
    simp only [List.map_cons, List.nodup_cons] at h
    simp only [insert_assoc]
    split
    · rename_i hk
      subst hk
      simpa [List.nodup_cons] using h
    · rename_i hk
      simp only [List.map_cons, List.nodup_cons]
      refine ⟨?_, ih h.2⟩
      rw [mem_insert_assoc_keys]
      push_neg
      exact ⟨h.1, hk⟩

/-- As long as every loop index is below the header count, the row
loop succeeds, its keys are the old keys plus the headers at the
visited indices, and distinctness of the keys is preserved. -/
theorem build_row_go_ok (hs r : List String) :
    ∀ (is : List Nat) (row : List (String × String)), (∀ i ∈ is, i < hs.length) →
    ∃ m, build_row_go hs r row is = Except.ok m ∧
      (∀ h, h ∈ m.map Prod.fst ↔ h ∈ row.map Prod.fst ∨ ∃ i ∈ is, hs.get? i = some h) ∧
      ((row.map Prod.fst).Nodup → (m.map Prod.fst).Nodup) := by
  intro is
  induction is with
  | nil =>
    intro row _
    exact ⟨row, rfl, by simp, fun hn => hn⟩
  | cons i is ih =>
    intro row hlt
    have hi : i < hs.length := hlt i (List.mem_cons_self i is)
    have hget : hs.get? i = some (hs.get ⟨i, hi⟩) := List.get?_eq_get hi
    obtain ⟨m, hm, hiff, hnd⟩ :=
      ih (insert_assoc row (hs.get ⟨i, hi⟩) ((r.get? i).getD ""))
        (fun j hj => hlt j (List.mem_cons_of_mem i hj))
    refine ⟨m, ?_, ?_, ?_⟩
    · simp only [build_row_go, hget]
      exact hm
    · intro h
      rw [hiff h, mem_insert_assoc_keys]
      constructor
      · rintro (⟨hr | he⟩ | ⟨j, hj, hgj⟩)
        · exact Or.inl hr
        · exact Or.inr ⟨i, List.mem_cons_self i is, by rw [hget, he]⟩
        · exact Or.inr ⟨j, List.mem_cons_of_mem i hj, hgj⟩
      · rintro (hr | ⟨j, hj, hgj⟩)
        · exact Or.inl (Or.inl hr)
        · rcases List.mem_cons.mp hj with rfl | hj'
          · refine Or.inl (Or.inr ?_)
            rw [hget] at hgj
            exact (Option.some_injective _ hgj).symm
          · exact Or.inr ⟨j, hj', hgj⟩
    · intro hrow
      exact hnd (insert_assoc_keys_nodup row _ _ hrow)

/-- C10: once the header row is available, the per-cell header-lookup
error branch of the CSV row loop is unreachable — every loop index is
below the header count, so building a row never returns an error, and
the produced row map has exactly one entry per header name. -/
theorem build_row_header_get_total (hs r : List String) :
    (∀ e, build_row hs r ≠ Except.error e) ∧
    ∃ m, build_row hs r = Except.ok m ∧
      (m.map Prod.fst).Nodup ∧ (∀ h, h ∈ m.map Prod.fst ↔ h ∈ hs) := by
  obtain ⟨m, hm, hiff, hnd⟩ :=
    build_row_go_ok hs r (List.range hs.length) [] (fun i hi => List.mem_range.mp hi)
  have hbr : build_row hs r = Except.ok m := by rw [build_row]; exact hm
  constructor
  · intro e he
    rw [hbr] at he
    cases he
  · refine ⟨m, hbr, hnd (by simp), ?_⟩
    intro h
    rw [hiff h]
    simp only [List.map_nil, List.not_mem_nil, false_or]
    constructor
    · rintro ⟨i, _, hgi⟩
      exact List.mem_iff_get?.mpr ⟨i, hgi⟩
    · intro hmem
      obtain ⟨n, hn⟩ := List.mem_iff_get?.mp hmem
      obtain ⟨hlt, _⟩ := List.get?_eq_some.mp hn
      exact ⟨n, List.mem_range.mpr hlt, hn⟩

/-- Looking up every position of a list in order reproduces the list. -/
theorem map_getD_range (hs : List String) :
    (List.range hs.length).map (fun i => (hs.get? i).getD "") = hs := by
  apply List.ext_get
  · simp
  · intro n h1 h2
    simp only [List.get_eq_getElem, List.getElem_map, List.getElem_range]
    rw [List.get?_eq_get h2]
    rfl

/-- When the headers at the visited indices are distinct and absent
from the accumulated row, the row loop appends one entry per index in
order, pairing each header with its cell (the empty string past the
record's end). -/
theorem build_row_go_fresh (hs r : List String) :
    ∀ (is : List Nat) (row : List (String × String)),
    (∀ i ∈ is, i < hs.length) →
    (∀ i ∈ is, (hs.get? i).getD "" ∉ row.map Prod.fst) →
    ((is.map (fun i => (hs.get? i).getD "")).Nodup) →
    build_row_go hs r row is =
      Except.ok (row ++ is.map (fun i => ((hs.get? i).getD "", (r.get? i).getD ""))) := by
  intro is
  induction is with
  | nil => intro row _ _ _; simp [build_row_go]
  | cons i is ih =>
    intro row hlt hfresh hnd
    have hi : i < hs.length := hlt i (List.mem_cons_self i is)
    have hget : hs.get? i = some (hs.get ⟨i, hi⟩) := List.get?_eq_get hi
    have hh : (hs.get? i).getD "" = hs.get ⟨i, hi⟩ := by rw [hget]; rfl
    simp only [List.map_cons, List.nodup_cons] at hnd
    simp only [build_row_go, hget]
    rw [insert_assoc_of_not_mem row _ _
      (by rw [← hh]; exact hfresh i (List.mem_cons_self i is))]
    rw [ih (row ++ [(hs.get ⟨i, hi⟩, (r.get? i).getD "")])
      (fun j hj => hlt j (List.mem_cons_of_mem i hj))
      ?_ hnd.2]
    · simp [List.append_assoc, hh, List.getElem?_eq_getElem, hi]
    · intro j hj
      simp only [List.map_append, List.mem_append, List.map_cons, List.map_nil,
        List.mem_singleton, not_or]
      refine ⟨hfresh j (List.mem_cons_of_mem i hj), ?_⟩
      intro hc
      rw [← hh] at hc
      exact hnd.1 (hc ▸ List.mem_map_of_mem (fun i => (hs.get? i).getD "") hj)

/-- With distinct header names, building a row succeeds with exactly
one entry per header in header order, each paired with the
corresponding cell as a string (empty when the record is short). -/
theorem build_row_nodup_exact (hs r : List String) (hnd : hs.Nodup) :
    build_row hs r =
      Except.ok ((List.range hs.length).map fun i =>
        ((hs.get? i).getD "", (r.get? i).getD "")) := by
  rw [build_row]
  have := build_row_go_fresh hs r (List.range hs.length) []
    (fun i hi => List.mem_range.mp hi) (by simp)
    (by rw [map_getD_range]; exact hnd)
  simpa using this

/-- Records that fail to parse contribute nothing: the record loop
computes the same result on the parse-successful records alone. -/
theorem read_csv_records_filter (hs : List String) :
    ∀ (recs : List (Except String (List String))) (acc : List Value),
    read_csv_records hs acc recs = read_csv_records hs acc (recs.filter Except.isOk) := by
  intro recs
  induction recs with
  | nil => intro acc; rfl
  | cons rec rest ih =>
    intro acc
    cases rec with
    | error e => simpa [read_csv_records, List.filter_cons, Except.isOk] using ih acc
    | ok r =>
      simp only [read_csv_records, List.filter_cons, Except.isOk]
      cases hb : build_row hs r with
      | error e2 => simp [read_csv_records, hb]
      | ok row => simp [read_csv_records, hb, ih]

/-- On parse-successful records with distinct headers, the record loop
produces one JSON object per record, mapping each header to the
corresponding cell as a JSON string. -/
theorem read_csv_records_map_ok (hs : List String) (hnd : hs.Nodup) :
    ∀ (rs : List (List String)) (acc : List Value),
    read_csv_records hs acc (rs.map Except.ok) =
      Except.ok (acc ++ rs.map fun r =>
        Value.obj ((List.range hs.length).map fun i =>
          ((hs.get? i).getD "", Value.str ((r.get? i).getD "")))) := by
  intro rs
  induction rs with
  | nil => intro acc; simp [read_csv_records]
  | cons r rs ih =>
    intro acc
    simp only [List.map_cons, read_csv_records, build_row_nodup_exact hs r hnd]
    rw [ih]
    simp [List.map_map, List.append_assoc, Function.comp]

/-- C5: the CSV decoder fails outright when the header cannot be read;
skips records that fail to parse, continuing with the remaining rows;
and converts each well-formed record into an object assigning every
column name the corresponding cell as a string, with cells missing
beyond the record's length represented as the empty string. -/
theorem read_bytes_csv_rows (e : String) (hs : List String)
    (records : List (Except String (List String))) (rs : List (List String))
    (hnd : hs.Nodup) :
    read_bytes_csv (Except.error e) records = Except.error e ∧
    read_bytes_csv (Except.ok hs) records =
      read_bytes_csv (Except.ok hs) (records.filter Except.isOk) ∧
    read_bytes_csv (Except.ok hs) (rs.map Except.ok) =
      Except.ok (rs.map fun r =>
        Value.obj ((List.range hs.length).map fun i =>
          ((hs.get? i).getD "", Value.str ((r.get? i).getD "")))) := by
  refine ⟨rfl, ?_, ?_⟩
  · simp only [read_bytes_csv]
    exact read_csv_records_filter hs records []
  · simp only [read_bytes_csv]
    simpa using read_csv_records_map_ok hs hnd rs []

/-- Witness for C5: header error is fatal; a malformed record is
skipped; a short record pads with the empty string. -/
theorem read_bytes_csv_rows_witness :
    read_bytes_csv (Except.error "bad") [] = Except.error "bad" ∧
    read_bytes_csv (Except.ok ["a", "b"]) [Except.ok ["1", "2"], Except.error "x"] =
      read_bytes_csv (Except.ok ["a", "b"])
        ([Except.ok ["1", "2"], Except.error "x"].filter Except.isOk) ∧
    read_bytes_csv (Except.ok ["a", "b"]) ([["1"]].map Except.ok) =
      Except.ok [Value.obj [("a", Value.str "1"), ("b", Value.str "")]] :=
  read_bytes_csv_rows "bad" ["a", "b"] [Except.ok ["1", "2"], Except.error "x"] [["1"]]
    (by decide)

/-- C6: the array decoder returns a top-level array's elements
unmodified and in order, and fails with the must-contain-an-array
error on every other top-level shape. -/
theorem read_bytes_json_array_only (vs : List Value) (v : Value) :
    read_bytes_json (Except.ok (Value.arr vs)) = Except.ok vs ∧
    ((∀ ws, v ≠ Value.arr ws) →
      read_bytes_json (Except.ok v) =
        Except.error "the file must contain an array of json objects") := by
  refine ⟨rfl, fun h => ?_⟩
  cases v with
  | arr ws => exact absurd rfl (h ws)
  | null => rfl
  | bool b => rfl
  | num n => rfl
  | str s => rfl
  | obj kvs => rfl

/-- Witness for C6 at a top-level object. -/
theorem read_bytes_json_array_only_witness :
    read_bytes_json (Except.ok (Value.obj [("data", Value.num 1)])) =
      Except.error "the file must contain an array of json objects" :=
  (read_bytes_json_array_only [] (Value.obj [("data", Value.num 1)])).2
    (fun _ h => Value.noConfusion h)

/-- C4 counterexample: the filename "csv" contains no dot, hence has
no extension, yet ingestion selects the CSV decoder and proceeds
instead of returning the unsupported-format error, refuting the claim
that every filename without an extension fails. -/
theorem select_decoder_dotless_csv :
    ('.' ∉ "csv".data) ∧
    select_decoder "csv" = some DecoderKind.csv ∧
    insert_datapoints_from_file (fun _ => Except.ok []) (fun _ => Except.ok []) "csv" =
      Except.ok [] :=
  ⟨by decide, rfl, rfl⟩

/-- C4 (amended): the decoder is selected by the last dot-separated
component of the filename — the whole filename when it contains no
dot — with "jsonl", "json" and "csv" choosing the respective decoders;
for any other value the fatal unsupported-format error is returned
regardless of the decoder and store collaborators, so no decode is
attempted. -/
theorem insert_datapoints_from_file_dispatch
    (decode : DecoderKind → Except String (List Value))
    (store : List Value → Except String (List Datapoint)) (filename : String) :
    (file_extension filename = "jsonl" → select_decoder filename = some DecoderKind.jsonl) ∧
    (file_extension filename = "json" → select_decoder filename = some DecoderKind.json) ∧
    (file_extension filename = "csv" → select_decoder filename = some DecoderKind.csv) ∧
    (file_extension filename ∉ (["jsonl", "json", "csv"] : List String) →
      select_decoder filename = none ∧
      insert_datapoints_from_file decode store filename =
        Except.error "Attempting to process file as unstructured even though requested as structured") := by
  refine ⟨fun h => by simp [select_decoder, h], fun h => by simp [select_decoder, h],
    fun h => by simp [select_decoder, h], fun h => ?_⟩
  simp only [List.mem_cons, List.not_mem_nil, or_false, not_or] at h
  obtain ⟨h1, h2, h3⟩ := h
  have hsel : select_decoder filename = none := by
    simp [select_decoder, h1, h2, h3]
  exact ⟨hsel, by simp [insert_datapoints_from_file, hsel]⟩

/-- Witness for C4 (amended): the `.json` extension selects the array
decoder, and the unrecognized `.txt` extension is a fatal error. -/
theorem insert_datapoints_from_file_dispatch_witness :
    select_decoder "data.json" = some DecoderKind.json ∧
    insert_datapoints_from_file (fun _ => Except.ok []) (fun _ => Except.ok []) "notes.txt" =
      Except.error "Attempting to process file as unstructured even though requested as structured" :=
  ⟨(insert_datapoints_from_file_dispatch (fun _ => Except.ok []) (fun _ => Except.ok [])
      "data.json").2.1 rfl,
   ((insert_datapoints_from_file_dispatch (fun _ => Except.ok []) (fun _ => Except.ok [])
      "notes.txt").2.2.2 (by decide)).2⟩

/-- C7: when a datapoint's data parses as a string-to-NodeInput map
containing the selected index column, projection produces a record
whose content merges the chat messages when the selected field is a
chat-message list and is the field's serialized string form otherwise,
whose data maps each metadata key to the display string of its value,
and whose id and datasource id are the string forms of the datapoint's
id and dataset id. -/
theorem into_vector_db_datapoint_shape (dp : Datapoint) (col : String)
    (m : List (String × NodeInput)) (ni : NodeInput)
    (hm : parse_node_input_map dp.data = some m)
    (hni : lookup_assoc m col = some ni) :
    ∃ rec : VectorDBDatapoint,
      dp.into_vector_db_datapoint col = some rec ∧
      rec.content = (match ni with
        | .chatMessageList msgs => merge_chat_messages msgs
        | .plain v => NodeInput.render (.plain v)) ∧
      rec.data = dp.metadata.map (fun kv => (kv.1, json_value_to_string kv.2)) ∧
      rec.datasource_id = dp.dataset_id.render ∧
      rec.id = dp.id.render := by
  refine ⟨⟨(match ni with
      | .chatMessageList messages => merge_chat_messages messages
      | _ => ni.render),
    dp.dataset_id.render,
    dp.metadata.map (fun kv => (kv.1, json_value_to_string kv.2)),
    dp.id.render⟩, ?_, ?_, rfl, rfl, rfl⟩
  · simp only [Datapoint.into_vector_db_datapoint, hm, hni]
    cases ni <;> rfl
  · cases ni <;> rfl

/-- Witness for C7: a plain string field indexes as its bare content,
and an array-valued metadata entry is stringified. -/
theorem into_vector_db_datapoint_shape_witness : ∃ rec : VectorDBDatapoint,
    (Datapoint.mk ⟨1⟩ ⟨2⟩ (Value.obj [("text", Value.str "hello")]) none
      [("k", Value.arr [Value.num 1])]).into_vector_db_datapoint "text" = some rec ∧
    rec.content = "hello" ∧
    rec.data = [("k", "[1]")] ∧
    rec.datasource_id = Uuid.render ⟨2⟩ ∧
    rec.id = Uuid.render ⟨1⟩ :=
  into_vector_db_datapoint_shape
    (Datapoint.mk ⟨1⟩ ⟨2⟩ (Value.obj [("text", Value.str "hello")]) none
      [("k", Value.arr [Value.num 1])]) "text"
    [("text", NodeInput.plain (Value.str "hello"))] (NodeInput.plain (Value.str "hello"))
    rfl rfl
